import Mathlib

/-!
Verification of the cancellation coordination core: the abort-signal
utilities (configureAbortSignalListeners, createAbortController, safeAbort)
and the AbortControllerPool class.

JavaScript AbortController objects are mutable and held by reference in the
pool, so the embedding uses an explicit heap: a list of controller states
indexed by handle id (a natural number).  The field
abortControllers : Record<string, AbortController> is embedded as an
association list from string keys to handle ids, with JavaScript own-property
semantics for lookup, assignment and delete.
-/

/-- State of one AbortController / its AbortSignal: the aborted flag, the
observer callbacks currently registered on the signal (identified by number),
and the observers that have been notified so far.  Platform semantics: a
controller starts unaborted with no observers notified. -/
structure AbortController where
  aborted : Bool
  listeners : List Nat
  notified : List Nat
deriving Repr, DecidableEq

/-- Platform semantics of controller.abort(), as invoked by safeAbort: a
no-op when the controller is already aborted, otherwise it sets the aborted
flag and notifies every currently registered observer once. -/
def AbortController.abort (c : AbortController) : AbortController :=
  if c.aborted then c
  else { c with aborted := true, notified := c.notified ++ c.listeners }

/-- Global listener-limit state: EventEmitter.defaultMaxListeners together
with the process-level max-listeners value. -/
structure ListenerConfig where
  defaultMaxListeners : Nat
  processMaxListeners : Nat
deriving Repr, DecidableEq

/-- configureAbortSignalListeners: sets EventEmitter.defaultMaxListeners to
20 and calls process.setMaxListeners(20), regardless of the previous
configuration. -/
def configureAbortSignalListeners (_g : ListenerConfig) : ListenerConfig :=
  { defaultMaxListeners := 20, processMaxListeners := 20 }

/-- Own-property lookup on the embedded Record: the binding for the key, or
none when the key is absent (JavaScript: undefined). -/
def recordGet (m : List (String × Nat)) (k : String) : Option Nat :=
  match m with
  | [] => none
  | (a, b) :: rest => if a = k then some b else recordGet rest k

/-- Property assignment on the embedded Record: replace the binding for the
key when present, append a new binding otherwise. -/
def recordSet (m : List (String × Nat)) (k : String) (v : Nat) :
    List (String × Nat) :=
  match m with
  | [] => [(k, v)]
  | (a, b) :: rest => if a = k then (k, v) :: rest else (a, b) :: recordSet rest k v

/-- The delete operator on the embedded Record: drop the binding for the key. -/
def recordDelete (m : List (String × Nat)) (k : String) : List (String × Nat) :=
  match m with
  | [] => []
  | (a, b) :: rest => if a = k then recordDelete rest k else (a, b) :: recordDelete rest k

/-- The AbortControllerPool class together with the heap of controller
objects its Record refers to.  abortControllers maps each key to the heap id
of the controller stored under it. -/
structure AbortControllerPool where
  heap : List AbortController
  abortControllers : List (String × Nat)
deriving Repr, DecidableEq

/-- A freshly constructed pool: abortControllers starts as the empty object
and no controller has been allocated yet. -/
def emptyPool : AbortControllerPool := { heap := [], abortControllers := [] }

/-- createAbortController: constructs a new AbortController and returns it;
it performs no listener-limit configuration of its own (the global
configuration handles that).  The fresh controller is appended to the heap
and its id is returned. -/
def createAbortController (heap : List AbortController) :
    Nat × List AbortController :=
  (heap.length, heap ++ [{ aborted := false, listeners := [], notified := [] }])

namespace AbortControllerPool

/-- add(id, abortController): this.abortControllers[id] = abortController. -/
def add (s : AbortControllerPool) (id : String) (h : Nat) : AbortControllerPool :=
  { s with abortControllers := recordSet s.abortControllers id h }

/-- create(id): const abortController = createAbortController();
this.add(id, abortController); return abortController. -/
def create (s : AbortControllerPool) (id : String) : Nat × AbortControllerPool :=
  let r := createAbortController s.heap
  (r.1, add { s with heap := r.2 } id r.1)

/-- remove(id): if (hasOwnProperty(abortControllers, id)) delete
this.abortControllers[id]. -/
def remove (s : AbortControllerPool) (id : String) : AbortControllerPool :=
  if (recordGet s.abortControllers id).isSome then
    { s with abortControllers := recordDelete s.abortControllers id }
  else s

/-- get(id): return this.abortControllers[id]. -/
def get (s : AbortControllerPool) (id : String) : Option Nat :=
  recordGet s.abortControllers id

end AbortControllerPool

/-- safeAbort with the call controller.abort() abstracted as a function f
that either returns the updated controller state or throws: const controller
= abortControllerPool.get(id); if (controller) { controller.abort();
abortControllerPool.remove(id) }, all inside try/catch.  An error thrown by
the abort call is caught and logged, and since the throw happens before any
registry mutation the pool is left exactly as it was. -/
def safeAbortWith (f : AbortController → Except String AbortController)
    (s : AbortControllerPool) (id : String) : AbortControllerPool :=
  match AbortControllerPool.get s id with
  | none => s
  | some h =>
    match s.heap.get? h with
    | none => s
    | some c =>
      match f c with
      | Except.error _ => s
      | Except.ok c2 =>
        AbortControllerPool.remove { s with heap := s.heap.set h c2 } id

/-- The body of the try block in safeAbort, before the catch clause is
applied, in the exception monad: get, truthiness test, controller.abort()
(which may throw), remove. -/
def safeAbortTry (f : AbortController → Except String AbortController)
    (s : AbortControllerPool) (id : String) : Except String AbortControllerPool :=
  match AbortControllerPool.get s id with
  | none => Except.ok s
  | some h =>
    match s.heap.get? h with
    | none => Except.ok s
    | some c =>
      match f c with
      | Except.error e => Except.error e
      | Except.ok c2 =>
        Except.ok (AbortControllerPool.remove { s with heap := s.heap.set h c2 } id)

/-- safeAbort including its catch clause, in the exception monad: an error
from the try body is logged (console.warn) and swallowed, returning normally
with the pool unchanged. -/
def safeAbortE (f : AbortController → Except String AbortController)
    (s : AbortControllerPool) (id : String) : Except String AbortControllerPool :=
  match safeAbortTry f s id with
  | Except.ok s2 => Except.ok s2
  | Except.error _ => Except.ok s

/-- safeAbort as it runs in production: the platform controller.abort() never
throws, so the abstract call is instantiated with AbortController.abort. -/
def safeAbort (s : AbortControllerPool) (id : String) : AbortControllerPool :=
  safeAbortWith (fun c => Except.ok c.abort) s id

/-- abort(id) on the pool: safeAbort(this, id). -/
def AbortControllerPool.abort (s : AbortControllerPool) (id : String) :
    AbortControllerPool :=
  safeAbort s id

/-- External registry operations of the spec surface (create, get, remove,
cancel), used to talk about runs of the registry from its initial state. -/
inductive PoolOp where
  | create (key : String)
  | getOp (key : String)
  | remove (key : String)
  | cancel (key : String)
deriving Repr, DecidableEq

/-- One step of a registry run. -/
def runOp (s : AbortControllerPool) : PoolOp → AbortControllerPool
  | PoolOp.create k => (AbortControllerPool.create s k).2
  | PoolOp.getOp _ => s
  | PoolOp.remove k => AbortControllerPool.remove s k
  | PoolOp.cancel k => AbortControllerPool.abort s k

/-- A registry run: the operations applied in order. -/
def runOps (s : AbortControllerPool) : List PoolOp → AbortControllerPool
  | [] => s
  | op :: ops => runOps (runOp s op) ops

/-! Helper lemmas about the embedded Record operations. -/

theorem recordGet_set_self (m : List (String × Nat)) (k : String) (v : Nat) :
    recordGet (recordSet m k v) k = some v := by
  induction m with
  | nil => simp [recordSet, recordGet]
  | cons p rest ih =>
    obtain ⟨a, b⟩ := p
    by_cases h : a = k
    · simp [recordSet, recordGet, h]
    · simp [recordSet, recordGet, h, ih]

theorem recordGet_set_ne (m : List (String × Nat)) (k K : String) (v : Nat)
    (hne : k ≠ K) : recordGet (recordSet m k v) K = recordGet m K := by
  induction m with
  | nil => simp [recordSet, recordGet, hne]
  | cons p rest ih =>
    obtain ⟨a, b⟩ := p
    by_cases h : a = k
    · subst h
      simp [recordSet, recordGet, hne]
    · simp [recordSet, recordGet, h, ih]

theorem recordGet_delete_self (m : List (String × Nat)) (k : String) :
    recordGet (recordDelete m k) k = none := by
  induction m with
  | nil => simp [recordDelete, recordGet]
  | cons p rest ih =>
    obtain ⟨a, b⟩ := p
    by_cases h : a = k
    · simp [recordDelete, h, ih]
    · simp [recordDelete, recordGet, h, ih]

theorem recordGet_delete_ne (m : List (String × Nat)) (k K : String)
    (hne : k ≠ K) : recordGet (recordDelete m k) K = recordGet m K := by
  induction m with
  | nil => simp [recordDelete]
  | cons p rest ih =>
    obtain ⟨a, b⟩ := p
    by_cases h : a = k
    · subst h
      simp [recordDelete, recordGet, hne, ih]
    · simp [recordDelete, recordGet, h, ih]

theorem recordGet_none_of_absent (m : List (String × Nat)) (K : String)
    (habs : ∀ p ∈ m, p.1 ≠ K) : recordGet m K = none := by
  induction m with
  | nil => rfl
  | cons p rest ih =>
    obtain ⟨a, b⟩ := p
    have ha : a ≠ K := habs (a, b) (List.mem_cons_self _ _)
    simp [recordGet, ha]
    exact ih fun q hq => habs q (List.mem_cons_of_mem _ hq)

theorem recordGet_mem (m : List (String × Nat)) (K : String) (v : Nat)
    (hget : recordGet m K = some v) : (K, v) ∈ m := by
  induction m with
  | nil => simp [recordGet] at hget
  | cons p rest ih =>
    obtain ⟨a, b⟩ := p
    by_cases h : a = K
    · subst h
      simp [recordGet] at hget
      subst hget
      exact List.mem_cons_self _ _
    · simp [recordGet, h] at hget
      exact List.mem_cons_of_mem _ (ih hget)

/-! Helper lemmas about the pool operations. -/

theorem remove_heap (s : AbortControllerPool) (K : String) :
    (AbortControllerPool.remove s K).heap = s.heap := by
  unfold AbortControllerPool.remove
  split <;> rfl

theorem get_remove_self (s : AbortControllerPool) (K : String) :
    AbortControllerPool.get (AbortControllerPool.remove s K) K = none := by
  unfold AbortControllerPool.remove AbortControllerPool.get
  split
  · exact recordGet_delete_self _ _
  · next h => exact Option.not_isSome_iff_eq_none.mp h

theorem get_remove_ne (s : AbortControllerPool) (K K' : String) (hne : K ≠ K') :
    AbortControllerPool.get (AbortControllerPool.remove s K) K' =
      AbortControllerPool.get s K' := by
  unfold AbortControllerPool.remove AbortControllerPool.get
  split
  · exact recordGet_delete_ne _ _ _ hne
  · rfl

theorem safeAbortWith_of_get_none (f : AbortController → Except String AbortController)
    (s : AbortControllerPool) (K : String)
    (h0 : AbortControllerPool.get s K = none) : safeAbortWith f s K = s := by
  unfold safeAbortWith
  rw [h0]

theorem safeAbortWith_of_found (f : AbortController → Except String AbortController)
    (s : AbortControllerPool) (K : String) (h : Nat) (c : AbortController)
    (h1 : AbortControllerPool.get s K = some h) (h2 : s.heap.get? h = some c) :
    safeAbortWith f s K =
      match f c with
      | Except.error _ => s
      | Except.ok c2 =>
        AbortControllerPool.remove { s with heap := s.heap.set h c2 } K := by
  simp only [safeAbortWith, h1, h2]

theorem abort_of_get_none (s : AbortControllerPool) (K : String)
    (h0 : AbortControllerPool.get s K = none) :
    AbortControllerPool.abort s K = s := by
  unfold AbortControllerPool.abort safeAbort
  exact safeAbortWith_of_get_none _ s K h0

theorem abort_of_dangling (s : AbortControllerPool) (K : String) (h : Nat)
    (h1 : AbortControllerPool.get s K = some h) (h2 : s.heap.get? h = none) :
    AbortControllerPool.abort s K = s := by
  simp only [AbortControllerPool.abort, safeAbort, safeAbortWith, h1, h2]

theorem abort_of_found (s : AbortControllerPool) (K : String) (h : Nat)
    (c : AbortController)
    (h1 : AbortControllerPool.get s K = some h) (h2 : s.heap.get? h = some c) :
    AbortControllerPool.abort s K =
      AbortControllerPool.remove { s with heap := s.heap.set h c.abort } K := by
  unfold AbortControllerPool.abort safeAbort
  rw [safeAbortWith_of_found _ s K h c h1 h2]

theorem abort_heap_get? (s : AbortControllerPool) (K : String) (j : Nat)
    (hj : ∀ h, AbortControllerPool.get s K = some h → j ≠ h) :
    (AbortControllerPool.abort s K).heap.get? j = s.heap.get? j := by
  cases h1 : AbortControllerPool.get s K with
  | none => rw [abort_of_get_none s K h1]
  | some h =>
    cases h2 : s.heap.get? h with
    | none => rw [abort_of_dangling s K h h1 h2]
    | some c =>
      rw [abort_of_found s K h c h1 h2, remove_heap]
      exact List.get?_set_ne _ _ (Ne.symm (hj h h1))

theorem get_abort_none_preserved (s : AbortControllerPool) (k K : String)
    (h0 : AbortControllerPool.get s K = none) :
    AbortControllerPool.get (AbortControllerPool.abort s k) K = none := by
  cases h1 : AbortControllerPool.get s k with
  | none => rw [abort_of_get_none s k h1]; exact h0
  | some h =>
    cases h2 : s.heap.get? h with
    | none => rw [abort_of_dangling s k h h1 h2]; exact h0
    | some c =>
      rw [abort_of_found s k h c h1 h2]
      by_cases hk : k = K
      · subst hk
        exact get_remove_self _ _
      · rw [get_remove_ne _ _ _ hk]
        exact h0

/-! Helper lemmas about the controller abort operation. -/

theorem abort_aborted (c : AbortController) :
    (AbortController.abort c).aborted = true := by
  unfold AbortController.abort
  split
  · assumption
  · rfl

theorem abort_of_aborted (c : AbortController) (h : c.aborted = true) :
    AbortController.abort c = c := by
  unfold AbortController.abort
  simp [h]

theorem abort_abort (c : AbortController) :
    AbortController.abort (AbortController.abort c) = AbortController.abort c :=
  abort_of_aborted _ (abort_aborted c)

theorem abort_iterate (c : AbortController) (n : Nat) :
    AbortController.abort^[n + 1] c = AbortController.abort c := by
  induction n with
  | zero => rfl
  | succ k ih =>
    rw [Function.iterate_succ_apply', ih]
    exact abort_abort c

theorem abort_iterate_fixed (c : AbortController) (h : c.aborted = true)
    (m : Nat) : AbortController.abort^[m] c = c := by
  induction m with
  | zero => rfl
  | succ k ih => rw [Function.iterate_succ_apply', ih, abort_of_aborted c h]

/-! Helper lemmas about registry runs. -/

theorem runOps_get_none (K : String) (ops : List PoolOp) :
    ∀ s : AbortControllerPool, AbortControllerPool.get s K = none →
    (∀ k, PoolOp.create k ∈ ops → k ≠ K) →
    AbortControllerPool.get (runOps s ops) K = none := by
  induction ops with
  | nil => intro s h0 _; exact h0
  | cons op rest ih =>
    intro s h0 hc
    have hrest : ∀ k, PoolOp.create k ∈ rest → k ≠ K :=
      fun k hk => hc k (List.mem_cons_of_mem _ hk)
    cases op with
    | create k =>
      have hkK : k ≠ K := hc k (List.mem_cons_self _ _)
      refine ih _ ?_ hrest
      show recordGet (recordSet s.abortControllers k s.heap.length) K = none
      rw [recordGet_set_ne _ _ _ _ hkK]
      exact h0
    | getOp k => exact ih _ h0 hrest
    | remove k =>
      refine ih _ ?_ hrest
      show AbortControllerPool.get (AbortControllerPool.remove s k) K = none
      by_cases hk : k = K
      · subst hk
        exact get_remove_self _ _
      · rw [get_remove_ne _ _ _ hk]
        exact h0
    | cancel k =>
      refine ih _ ?_ hrest
      exact get_abort_none_preserved _ _ _ h0

/-- C1: cancel(K) (pool abort, delegating to safeAbort) looks up K: when a
handle is found it calls abort() on that handle and then removes the entry
for K; when none is found it leaves the registry unchanged.  In particular,
for any key never passed to create in a run of the registry from its initial
state, cancel(K) is a no-op and returns without error. -/
theorem c1_cancel_lookup (s : AbortControllerPool) (K : String) :
    (AbortControllerPool.get s K = none → AbortControllerPool.abort s K = s) ∧
    (∀ h c, AbortControllerPool.get s K = some h → s.heap.get? h = some c →
      AbortControllerPool.abort s K =
        AbortControllerPool.remove { s with heap := s.heap.set h c.abort } K) ∧
    (∀ ops : List PoolOp, (∀ k, PoolOp.create k ∈ ops → k ≠ K) →
      AbortControllerPool.abort (runOps emptyPool ops) K = runOps emptyPool ops) := by
  refine ⟨fun h0 => abort_of_get_none s K h0,
    fun h c h1 h2 => abort_of_found s K h c h1 h2, fun ops hops => ?_⟩
  exact abort_of_get_none _ K (runOps_get_none K ops emptyPool rfl hops)

/-- Witness for C1: a run creating only the key A, then cancelling the never
created key B, leaves the registry unchanged. -/
theorem c1_cancel_lookup_witness :
    AbortControllerPool.abort (runOps emptyPool [PoolOp.create "A"]) "B" =
      runOps emptyPool [PoolOp.create "A"] :=
  (c1_cancel_lookup emptyPool "B").2.2 [PoolOp.create "A"] (by
    intro k hk
    simp only [List.mem_singleton, PoolOp.create.injEq] at hk
    subst hk
    decide)

/-- C2: signaling a handle n times for n at least 1 yields the same
observable state (aborted flag and notified observers) as signaling exactly
once; once signaled it stays signaled under any further signaling, and
signaling an already-signaled handle changes nothing and raises no error. -/
theorem c2_signal_idempotent (c : AbortController) (n : Nat) (hn : 1 ≤ n) :
    AbortController.abort^[n] c = AbortController.abort c ∧
    (AbortController.abort^[n] c).aborted = true ∧
    (∀ m, AbortController.abort^[m] (AbortController.abort^[n] c) =
      AbortController.abort^[n] c) ∧
    (c.aborted = true → AbortController.abort c = c) := by
  obtain ⟨k, rfl⟩ : ∃ k, n = k + 1 := ⟨n - 1, (Nat.succ_pred_eq_of_pos hn).symm⟩
  refine ⟨abort_iterate c k, ?_, ?_, abort_of_aborted c⟩
  · rw [abort_iterate c k]
    exact abort_aborted c
  · intro m
    rw [abort_iterate c k]
    exact abort_iterate_fixed _ (abort_aborted c) m

/-- Witness for C2: three signals on a fresh handle with one observer equal
one signal. -/
theorem c2_signal_idempotent_witness :
    AbortController.abort^[3] { aborted := false, listeners := [7], notified := [] } =
      AbortController.abort { aborted := false, listeners := [7], notified := [] } :=
  (c2_signal_idempotent { aborted := false, listeners := [7], notified := [] } 3
    (by decide)).1

/-- C3: every public registry operation is total.  create, add, get and
remove are total functions of the embedding by construction; cancel is proved
to return normally for every behavior of the underlying controller abort
call, including a throwing one, and to agree with the pure pool abort when
the platform abort returns normally. -/
theorem c3_operations_total (s : AbortControllerPool) (K : String)
    (f : AbortController → Except String AbortController) :
    (∃ s2, safeAbortE f s K = Except.ok s2) ∧
    safeAbortE f s K = Except.ok (safeAbortWith f s K) ∧
    safeAbortE (fun c => Except.ok c.abort) s K =
      Except.ok (AbortControllerPool.abort s K) := by
  have key : ∀ g : AbortController → Except String AbortController,
      safeAbortE g s K = Except.ok (safeAbortWith g s K) := by
    intro g
    cases h1 : AbortControllerPool.get s K with
    | none => simp only [safeAbortE, safeAbortTry, safeAbortWith, h1]
    | some h =>
      cases h2 : s.heap.get? h with
      | none => simp only [safeAbortE, safeAbortTry, safeAbortWith, h1, h2]
      | some c =>
        cases h3 : g c with
        | error e => simp only [safeAbortE, safeAbortTry, safeAbortWith, h1, h2, h3]
        | ok c2 => simp only [safeAbortE, safeAbortTry, safeAbortWith, h1, h2, h3]
  exact ⟨⟨safeAbortWith f s K, key f⟩, key f, key _⟩

/-- C4: create(K) mints a new handle, inserts it under K (overwriting any
existing entry) and returns that same handle, so that get(K) immediately
afterwards yields exactly the returned handle; create never fails. -/
theorem c4_create_inserts (s : AbortControllerPool) (K : String) :
    AbortControllerPool.get (AbortControllerPool.create s K).2 K =
      some (AbortControllerPool.create s K).1 ∧
    (AbortControllerPool.create s K).1 = s.heap.length ∧
    (AbortControllerPool.create s K).2.heap =
      s.heap ++ [{ aborted := false, listeners := [], notified := [] }] ∧
    (AbortControllerPool.create s K).2.abortControllers =
      recordSet s.abortControllers K s.heap.length := by
  refine ⟨?_, rfl, rfl, rfl⟩
  show recordGet (recordSet s.abortControllers K s.heap.length) K =
    some s.heap.length
  exact recordGet_set_self _ _ _

/-- C5: get(K) returns the handle registered under K when one is present and
an absent value otherwise, including keys never created in a run from the
initial state and keys just removed; it is a pure lookup with no side
effects. -/
theorem c5_get_lookup (s : AbortControllerPool) (K : String) :
    (∀ h, AbortControllerPool.get s K = some h → (K, h) ∈ s.abortControllers) ∧
    ((∀ p ∈ s.abortControllers, p.1 ≠ K) → AbortControllerPool.get s K = none) ∧
    AbortControllerPool.get (AbortControllerPool.remove s K) K = none ∧
    (∀ ops : List PoolOp, (∀ k, PoolOp.create k ∈ ops → k ≠ K) →
      AbortControllerPool.get (runOps emptyPool ops) K = none) := by
  refine ⟨fun h hg => recordGet_mem _ _ _ hg,
    fun habs => recordGet_none_of_absent _ _ habs,
    get_remove_self s K,
    fun ops hops => runOps_get_none K ops emptyPool rfl hops⟩

/-- Witness for C5: looking up a key in the initial registry yields the
absent value. -/
theorem c5_get_lookup_witness :
    AbortControllerPool.get emptyPool "flow1" = none :=
  (c5_get_lookup emptyPool "flow1").2.1 (by
    intro p hp
    simp [emptyPool] at hp)

/-- C6: remove(K) deletes the entry for K when present and is a no-op when
absent, never failing; afterwards get(K) is absent, a subsequent cancel(K)
leaves the pool unchanged, and remove touches no handle state in the heap. -/
theorem c6_remove_deletes (s : AbortControllerPool) (K : String) :
    (AbortControllerPool.remove s K).heap = s.heap ∧
    AbortControllerPool.get (AbortControllerPool.remove s K) K = none ∧
    AbortControllerPool.abort (AbortControllerPool.remove s K) K =
      AbortControllerPool.remove s K ∧
    (AbortControllerPool.get s K = none → AbortControllerPool.remove s K = s) := by
  refine ⟨remove_heap s K, get_remove_self s K, ?_, ?_⟩
  · exact abort_of_get_none _ K (get_remove_self s K)
  · intro h0
    have h1 : recordGet s.abortControllers K = none := h0
    unfold AbortControllerPool.remove
    rw [h1]
    rfl

/-- Witness for C6: removing a key from the initial registry is a no-op. -/
theorem c6_remove_deletes_witness :
    AbortControllerPool.remove emptyPool "x" = emptyPool :=
  (c6_remove_deletes emptyPool "x").2.2.2 rfl

/-! Further helper lemmas for the frame properties. -/

theorem get_create_ne (s : AbortControllerPool) (K K' : String) (hne : K ≠ K') :
    AbortControllerPool.get (AbortControllerPool.create s K).2 K' =
      AbortControllerPool.get s K' := by
  show recordGet (recordSet s.abortControllers K s.heap.length) K' =
    recordGet s.abortControllers K'
  exact recordGet_set_ne _ _ _ _ hne

theorem create_heap_get? (s : AbortControllerPool) (K : String) (j : Nat)
    (hj : j < s.heap.length) :
    (AbortControllerPool.create s K).2.heap.get? j = s.heap.get? j := by
  show (s.heap ++ [({ aborted := false, listeners := [], notified := [] } : AbortController)]).get? j =
    s.heap.get? j
  exact List.get?_append hj

theorem get_abort_ne (s : AbortControllerPool) (K K' : String) (hne : K ≠ K') :
    AbortControllerPool.get (AbortControllerPool.abort s K) K' =
      AbortControllerPool.get s K' := by
  cases h1 : AbortControllerPool.get s K with
  | none => rw [abort_of_get_none s K h1]
  | some h =>
    cases h2 : s.heap.get? h with
    | none => rw [abort_of_dangling s K h h1 h2]
    | some c =>
      rw [abort_of_found s K h c h1 h2]
      rw [get_remove_ne _ _ _ hne]
      rfl

/-- A concrete pool holding one already-aborted controller with one observer,
registered under the key K; used by the witnesses below. -/
def samplePool : AbortControllerPool :=
  { heap := [{ aborted := true, listeners := [1], notified := [1] }],
    abortControllers := [("K", 0)] }

/-- C7: key isolation, the frame property.  For distinct keys K and K2: add,
create, remove and cancel under K leave both the registry entry under K2 and
(whenever the two keys hold distinct handles, which create guarantees) the
state of the handle registered under K2 unchanged; in particular after
create A and create B, cancelling A does not change handle B at all. -/
theorem c7_key_isolation (s : AbortControllerPool) (K K' : String)
    (hne : K ≠ K') :
    (∀ h, AbortControllerPool.get (AbortControllerPool.add s K h) K' =
      AbortControllerPool.get s K') ∧
    (∀ h, (AbortControllerPool.add s K h).heap = s.heap) ∧
    AbortControllerPool.get (AbortControllerPool.create s K).2 K' =
      AbortControllerPool.get s K' ∧
    (∀ j, j < s.heap.length →
      (AbortControllerPool.create s K).2.heap.get? j = s.heap.get? j) ∧
    AbortControllerPool.get (AbortControllerPool.remove s K) K' =
      AbortControllerPool.get s K' ∧
    (AbortControllerPool.remove s K).heap = s.heap ∧
    AbortControllerPool.get (AbortControllerPool.abort s K) K' =
      AbortControllerPool.get s K' ∧
    (∀ h h2, AbortControllerPool.get s K = some h →
      AbortControllerPool.get s K' = some h2 → h ≠ h2 →
      (AbortControllerPool.abort s K).heap.get? h2 = s.heap.get? h2) ∧
    (AbortControllerPool.abort
        (AbortControllerPool.create (AbortControllerPool.create s "A").2 "B").2
        "A").heap.get?
        (AbortControllerPool.create (AbortControllerPool.create s "A").2 "B").1 =
      (AbortControllerPool.create
          (AbortControllerPool.create s "A").2 "B").2.heap.get?
        (AbortControllerPool.create (AbortControllerPool.create s "A").2 "B").1 ∧
    AbortControllerPool.get
      (AbortControllerPool.abort
        (AbortControllerPool.create (AbortControllerPool.create s "A").2 "B").2
        "A") "B" =
      some (AbortControllerPool.create (AbortControllerPool.create s "A").2 "B").1 := by
  refine ⟨fun h => recordGet_set_ne _ _ _ _ hne, fun h => rfl,
    get_create_ne s K K' hne, fun j hj => create_heap_get? s K j hj,
    get_remove_ne s K K' hne, remove_heap s K, get_abort_ne s K K' hne,
    ?_, ?_, ?_⟩
  · intro h h2 hg hg2 hnh
    refine abort_heap_get? s K h2 (fun h0 hh0 => ?_)
    rw [hg] at hh0
    injection hh0 with e
    subst e
    exact Ne.symm hnh
  · refine abort_heap_get? _ "A" _ (fun h0 hh0 => ?_)
    have hgA : AbortControllerPool.get
        (AbortControllerPool.create (AbortControllerPool.create s "A").2 "B").2
        "A" = some s.heap.length := by
      rw [get_create_ne _ "B" "A" (by decide)]
      exact recordGet_set_self _ _ _
    rw [hgA] at hh0
    injection hh0 with e
    subst e
    show (s.heap ++ [({ aborted := false, listeners := [], notified := [] } : AbortController)]).length ≠
      s.heap.length
    simp
  · rw [get_abort_ne _ "A" "B" (by decide)]
    exact recordGet_set_self _ _ _

/-- Witness for C7: removing the key A from the sample pool leaves the entry
under the distinct key K unchanged. -/
theorem c7_key_isolation_witness :
    AbortControllerPool.get (AbortControllerPool.remove samplePool "A") "K" =
      AbortControllerPool.get samplePool "K" :=
  (c7_key_isolation samplePool "A" "K" (by decide)).2.2.2.2.1

/-- Modelled from the spec: the process-wide initialization wiring is not in
the sampled source (only the configuration function itself is), so the
process lifecycle is taken from the spec: the global listener limit is set
once during process-wide initialization and never mutated again, while each
handle creation touches only the controller heap.  A process state pairs the
global listener configuration with the heap of allocated controllers. -/
structure ProcessState where
  config : ListenerConfig
  heap : List AbortController
deriving Repr, DecidableEq

/-- Modelled from the spec: process startup applies
configureAbortSignalListeners to the global listener configuration, once. -/
def startup (p : ProcessState) : ProcessState :=
  { p with config := configureAbortSignalListeners p.config }

/-- One handle creation at process level: createAbortController only
allocates on the heap. -/
def spawnHandle (p : ProcessState) : ProcessState :=
  { p with heap := (createAbortController p.heap).2 }

/-- C8: the global listener limit is configured exactly once, at startup, by
configureAbortSignalListeners, which sets both the EventEmitter default
max-listeners value and the process max-listeners value to the constant 20;
handle creation performs no per-controller listener-limit configuration, so
any number of later handle creations leaves the configuration at that
constant. -/
theorem c8_listener_config_once (p : ProcessState) (n : Nat) :
    (startup p).config = { defaultMaxListeners := 20, processMaxListeners := 20 } ∧
    (spawnHandle^[n] (startup p)).config =
      { defaultMaxListeners := 20, processMaxListeners := 20 } ∧
    (∀ q : ProcessState, (spawnHandle q).config = q.config) ∧
    (∀ g : ListenerConfig, configureAbortSignalListeners g =
      { defaultMaxListeners := 20, processMaxListeners := 20 }) := by
  have hiter : ∀ (m : Nat) (q : ProcessState), (spawnHandle^[m] q).config = q.config := by
    intro m
    induction m with
    | zero => intro q; rfl
    | succ k ih =>
      intro q
      rw [Function.iterate_succ_apply]
      exact ih (spawnHandle q)
  exact ⟨rfl, by rw [hiter n (startup p)]; rfl, fun q => rfl, fun g => rfl⟩

/-- C9: when the abort call on the stored handle throws, cancel(K) still
returns normally (the catch clause logs the error), but the removal step is
skipped, the registry is left exactly unchanged, and get(K) still returns the
same handle afterwards. -/
theorem c9_abort_error_keeps_entry
    (f : AbortController → Except String AbortController)
    (s : AbortControllerPool) (K : String) (h : Nat) (c : AbortController)
    (e : String) (h1 : AbortControllerPool.get s K = some h)
    (h2 : s.heap.get? h = some c) (h3 : f c = Except.error e) :
    safeAbortE f s K = Except.ok s ∧
    safeAbortWith f s K = s ∧
    AbortControllerPool.get (safeAbortWith f s K) K = some h := by
  have hw : safeAbortWith f s K = s := by
    rw [safeAbortWith_of_found f s K h c h1 h2, h3]
  refine ⟨?_, hw, by rw [hw]; exact h1⟩
  simp only [safeAbortE, safeAbortTry, h1, h2, h3]

/-- Witness for C9: a throwing abort call on the sample pool returns
normally, leaves the pool unchanged and keeps the entry registered. -/
theorem c9_abort_error_keeps_entry_witness :
    safeAbortE (fun _ => Except.error "boom") samplePool "K" = Except.ok samplePool ∧
    safeAbortWith (fun _ => Except.error "boom") samplePool "K" = samplePool ∧
    AbortControllerPool.get
      (safeAbortWith (fun _ => Except.error "boom") samplePool "K") "K" = some 0 :=
  c9_abort_error_keeps_entry (fun _ => Except.error "boom") samplePool "K" 0
    { aborted := true, listeners := [1], notified := [1] } "boom" rfl rfl rfl

/-- C10: create(K) constructs a brand-new handle, initially unsignaled with
no observer notified, whose id differs from every handle already stored in
the pool; and create mutates no previously allocated controller, so when it
overwrites a live entry under K the displaced handle keeps exactly its old
state (it is neither signaled nor otherwise changed, and its observers are
not notified). -/
theorem c10_create_fresh (s : AbortControllerPool) (K : String) :
    (AbortControllerPool.create s K).2.heap.get?
        (AbortControllerPool.create s K).1 =
      some { aborted := false, listeners := [], notified := [] } ∧
    (∀ p ∈ s.abortControllers, p.2 < s.heap.length →
      p.2 ≠ (AbortControllerPool.create s K).1) ∧
    (∀ j, j < s.heap.length →
      (AbortControllerPool.create s K).2.heap.get? j = s.heap.get? j) ∧
    (∀ h c, AbortControllerPool.get s K = some h → s.heap.get? h = some c →
      (AbortControllerPool.create s K).2.heap.get? h = some c) := by
  refine ⟨?_, ?_, fun j hj => create_heap_get? s K j hj, ?_⟩
  · show (s.heap ++ [({ aborted := false, listeners := [], notified := [] } : AbortController)]).get?
      s.heap.length = _
    exact List.get?_concat_length _ _
  · intro p _ hlt
    show p.2 ≠ s.heap.length
    exact Nat.ne_of_lt hlt
  · intro h c hg hh
    have hlt : h < s.heap.length := by
      rcases List.get?_eq_some.mp hh with ⟨hl, _⟩
      exact hl
    rw [create_heap_get? s K h hlt]
    exact hh

/-- Witness for C10: overwriting the sample pool entry under K leaves the
displaced controller state untouched. -/
theorem c10_create_fresh_witness :
    (AbortControllerPool.create samplePool "K").2.heap.get? 0 =
      some { aborted := true, listeners := [1], notified := [1] } :=
  (c10_create_fresh samplePool "K").2.2.2 0
    { aborted := true, listeners := [1], notified := [1] } rfl rfl

/-- A pool in which the same controller object has been registered under the
two distinct keys A and B through the public add method: the controller
allocated by createAbortController is stored once in the heap and both keys
point at it. -/
def aliasPool : AbortControllerPool :=
  AbortControllerPool.add
    (AbortControllerPool.add
      { heap := (createAbortController []).2, abortControllers := [] } "A" 0)
    "B" 0

/-- Counterexample to the unconditional reading of C7: in the aliased pool
the handle registered under B is the handle aborted by cancel(A), so
cancel(A) does change the signaled state of the handle registered under the
distinct key B. -/
theorem c7_aliased_counterexample :
    "A" ≠ "B" ∧
    AbortControllerPool.get aliasPool "B" = some 0 ∧
    AbortControllerPool.get (AbortControllerPool.abort aliasPool "A") "B" = some 0 ∧
    aliasPool.heap.get? 0 =
      some { aborted := false, listeners := [], notified := [] } ∧
    ¬ ((AbortControllerPool.abort aliasPool "A").heap.get? 0 =
      aliasPool.heap.get? 0) := by
  decide
